import Mathlib

/-!
Verification of the CBR Café – Cauca retrieval and fusion engine
(`app/api_cbr/cbr_cafe.py`) against its natural-language specification.

The Python module is shallowly embedded below.  Conventions:
* Python floats are modelled as exact rationals (`ℚ`); none of the verified
  properties depends on binary floating-point rounding.
* Untyped YAML/CLI values that the code coerces with `safe_float` (degrading
  to `None` on failure) are modelled as `Option ℚ` fields that already hold
  the coercion result.
* The two transcendental month encodings `sin(2πi/12)` and `cos(2πi/12)` are
  not rational, so the whole development is parametric in a function
  `sincos : Nat → ℚ × ℚ` standing for the pair of encodings at month index i.
* File-system effects are modelled by the `Source` datatype describing what
  the interpreter finds at a path, and exceptions by `Except`.
-/

namespace Cbr

/-- Python list `MESES` from `cbr_cafe.py`. -/
def MESES : List String :=
  ["enero", "febrero", "marzo", "abril", "mayo", "junio",
   "julio", "agosto", "septiembre", "octubre", "noviembre", "diciembre"]

/-- Python list `FASES`. -/
def FASES : List String :=
  ["vivero_establecimiento", "floracion_llenado", "cosecha_poscosecha"]

/-- The three tier-A domains.  `cbr_cafe.py` represents them as strings; the
CLI and the API restrict inputs to exactly these three names (plus "auto"). -/
inductive Dom where
  | almacigos
  | fertilizacion_sin_analisis
  | broca
deriving DecidableEq

/-- String tag of a domain, as stored in a case record field `tipo`. -/
def domStr : Dom → String
  | .almacigos => "almacigos"
  | .fertilizacion_sin_analisis => "fertilizacion_sin_analisis"
  | .broca => "broca"

/-- The `--tipo` selector: `auto` or one concrete domain. -/
inductive Tipo where
  | auto
  | dominio (d : Dom)
deriving DecidableEq

/-- String form of the selector (`params["tipo"]`). -/
def tipo_str : Tipo → String
  | .auto => "auto"
  | .dominio d => domStr d

/-- Entry of the Python dict `APLICA_DOM`. -/
structure Regla where
  aplica_en : List String
  razon_no_aplica : String
deriving DecidableEq

/-- Python dict `APLICA_DOMINIO` (renamed). -/
def APLICA_DOM : Dom → Regla
  | .almacigos =>
      ⟨["vivero_establecimiento"],
       "Almácigos aplica solo en vivero/establecimiento (antes del trasplante)."⟩
  | .fertilizacion_sin_analisis =>
      ⟨["vivero_establecimiento", "floracion_llenado"],
       "Fertilización sin análisis no aplica en cosecha/poscosecha."⟩
  | .broca =>
      ⟨["cosecha_poscosecha"],
       "Broca aplica cuando hay frutos (cosecha/poscosecha)."⟩

/-- Python `clip01`: clamp to [0,1]. -/
def clip01 (x : ℚ) : ℚ := max 0 (min 1 x)

/-- Python `str.lower()` (structurally recursive model, ASCII-adequate for
the vocabulary of this module). -/
def a_minusculas (s : String) : String := ⟨s.data.map Char.toLower⟩

/-- Python `str.strip()`: drop leading and trailing whitespace. -/
def recortar (s : String) : String :=
  ⟨((s.data.dropWhile Char.isWhitespace).reverse.dropWhile
      Char.isWhitespace).reverse⟩

/-- Numeric feature keys of the fixed schema (the keys of Python `RANGES`). -/
inductive FKey where
  | temp_media
  | humedad
  | prec_total_mm
  | dias_lluvia
  | brillo_solar
  | altitud_msnm
  | sombra_pct
  | mes_sin
  | mes_cos
  | meses_despues_siembra
  | edad_vivero_meses
deriving DecidableEq

/-- Python dict `RANGES`: (lo, hi) normalisation range per numeric feature. -/
def RANGES : FKey → ℚ × ℚ
  | .temp_media => (10, 30)
  | .humedad => (40, 100)
  | .prec_total_mm => (0, 400)
  | .dias_lluvia => (0, 30)
  | .brillo_solar => (0, 200)
  | .altitud_msnm => (1000, 2300)
  | .sombra_pct => (0, 80)
  | .mes_sin => (-1, 1)
  | .mes_cos => (-1, 1)
  | .meses_despues_siembra => (0, 24)
  | .edad_vivero_meses => (0, 6)

/-- Python `norm01`. -/
def norm01 (val : Option ℚ) (k : FKey) : Option ℚ :=
  match val with
  | none => none
  | some v =>
      let lo := (RANGES k).1
      let hi := (RANGES k).2
      some (if hi ≤ lo then 0 else clip01 ((v - lo) / (hi - lo)))

/-- Python `sim_numeric`. -/
def sim_numeric (a b : Option ℚ) (k : FKey) : Option ℚ :=
  match a, b with
  | some av, some bv =>
      match norm01 (some av) k, norm01 (some bv) k with
      | some na, some nb => some (clip01 (1 - |na - nb|))
      | _, _ => none
  | _, _ => none

/-- Python dict `ADYACENTES` (lunar-phase adjacency, `dict.get` default `∅`). -/
def ADYACENTES (a : String) : List String :=
  if a = "nueva" then ["creciente"]
  else if a = "creciente" then ["nueva", "llena"]
  else if a = "llena" then ["creciente", "menguante"]
  else if a = "menguante" then ["llena"]
  else []

/-- Python `sim_luna`.  The Python falsiness test `if not a or not b` is
modelled as: a missing value or the empty string yields `none`. -/
def sim_luna (a b : Option String) : Option ℚ :=
  match a, b with
  | some a0, some b0 =>
      if a0 = "" ∨ b0 = "" then none
      else
        let a1 := a_minusculas (recortar a0)
        let b1 := a_minusculas (recortar b0)
        if a1 = b1 then some 1
        else if b1 ∈ ADYACENTES a1 then some (1/2)
        else some 0
  | _, _ => none

/-- Python dict `STATIONS_ALT`. -/
def STATIONS_ALT (s : String) : Option ℚ :=
  if s = "Estacion_Tambo" then some 1735
  else if s = "Estacion_Piendamo" then some 1671
  else none

/-- Python `station_bonus`.  `STATIONS_ALT.get(case_station, safe_float(case_alt))`
falls back to the recorded case altitude when the station is unknown. -/
def station_bonus (query_alt : Option ℚ) (case_station : Option String)
    (case_alt : Option ℚ) : ℚ :=
  match query_alt with
  | none => 1
  | some qa =>
      let ref : Option ℚ :=
        match case_station with
        | none => case_alt
        | some s => match STATIONS_ALT s with
          | some v => some v
          | none => case_alt
      match ref with
      | none => 1
      | some r =>
          let diff := |qa - r|
          if diff ≤ 60 then 1
          else if diff ≤ 120 then 85/100
          else if diff ≤ 200 then 70/100
          else 55/100

/-- Month index: `MESES.index(m) if m in MESES else 0`. -/
def indice_mes (m : String) : Nat :=
  if m ∈ MESES then MESES.indexOf m else 0

/-- Python `mes_to_sin_cos`, parametric in the (irrational) encoding table
`sincos`; the real code returns `(sin(2πidx/12), cos(2πidx/12))`. -/
def mes_to_sin_cos (sincos : Nat → ℚ × ℚ) (mes : Option String) : ℚ × ℚ :=
  let m := a_minusculas (recortar (mes.getD ""))
  sincos (indice_mes m)

/-- Python `inferir_fase`. -/
def inferir_fase (altitud : Option ℚ) (mes : String) (mds : Option ℚ) : String :=
  match mds with
  | some m =>
      if m ≤ 1/2 then "vivero_establecimiento"
      else if m ≤ 24 then "floracion_llenado"
      else "cosecha_poscosecha"
  | none =>
      let m := a_minusculas (recortar mes)
      let idx := indice_mes m
      let alt := altitud.getD 1650
      if 1500 ≤ alt then
        if idx ∈ [0, 1, 2, 3] then "vivero_establecimiento"
        else if idx ∈ [4, 5, 6, 7] then "floracion_llenado"
        else "cosecha_poscosecha"
      else
        if idx ∈ [11, 0, 1, 2] then "vivero_establecimiento"
        else if idx ∈ [3, 4, 5, 6] then "floracion_llenado"
        else "cosecha_poscosecha"

/-- Test `mds is not None and 1 <= mds <= 24` from `dominio_aplica`. -/
def mds_en_rango (mds : Option ℚ) : Bool :=
  match mds with
  | some m => decide (1 ≤ m ∧ m ≤ 24)
  | none => false

/-- Python `dominio_aplica`: returns `(aplica, razon | None)`. -/
def dominio_aplica (dominio : Dom) (fase : String) (mds : Option ℚ) :
    Bool × Option String :=
  let regla := APLICA_DOM dominio
  if decide (dominio = Dom.fertilizacion_sin_analisis) && mds_en_rango mds then
    (true, none)
  else
    (decide (fase ∈ regla.aplica_en),
     if fase ∈ regla.aplica_en then none else some regla.razon_no_aplica)

/-- Nested object `contexto` of a case record.  A missing key reads as `none`. -/
structure Contexto where
  ubicacion : Option String := none
  altitud_msnm : Option ℚ := none
  mes : Option String := none
  variedad : Option String := none
  sombra_pct : Option ℚ := none
  estacion : Option String := none
  edad_vivero_meses : Option ℚ := none
deriving DecidableEq

/-- Nested object `clima` of a case record. -/
structure Clima where
  temp_media : Option ℚ := none
  humedad : Option ℚ := none
  prec_total_mm : Option ℚ := none
  dias_lluvia : Option ℚ := none
  brillo_solar : Option ℚ := none
deriving DecidableEq

/-- Nested object `almacigos_meta`. -/
structure AlmacigosMeta where
  edad_vivero_meses : Option ℚ := none
deriving DecidableEq

/-- Nested object `fertilizacion_sin_suelo`. -/
structure FertSinSuelo where
  meses_despues_siembra : Option ℚ := none
deriving DecidableEq

/-- The `recomendaciones` mapping of a case.  Tier-A cases use the
`tecnicas` / `tradicionales` lists, tier-B (historical) cases use a
category→text mapping, modelled as the ordered pair list `categorias`. -/
structure Recs where
  tecnicas : List String := []
  tradicionales : List String := []
  categorias : List (String × String) := []
deriving DecidableEq

/-- One case record as loaded from a YAML store. -/
structure Case where
  id : Option String := none
  tipo : Option String := none
  contexto : Option Contexto := none
  clima : Option Clima := none
  almacigos_meta : Option AlmacigosMeta := none
  fertilizacion_sin_suelo : Option FertSinSuelo := none
  luna_fase : Option String := none
  fase_fenologica : Option String := none
  recomendaciones : Option Recs := none
  fuente_caso_base : Option String := none
deriving DecidableEq

/-- What the interpreter finds at one store path:
* `missing` – `Path.exists()` is false (skipped with a warning);
* `unreadable` – `open()` or `yaml.safe_load` raises (the exception is NOT
  caught in `load_cases`);
* `nonList` – the YAML parses to a non-list value (skipped with a warning);
* `parsed cs` – the YAML parses to a list of case records. -/
inductive Source where
  | missing
  | unreadable
  | nonList
  | parsed (cs : List Case)
deriving DecidableEq

/-- Python `load_cases`.  An `unreadable` source raises, which aborts the
whole load (modelled as `Except.error`). -/
def load_cases : List Source → Except Unit (List Case)
  | [] => .ok []
  | p :: rest =>
      match p with
      | .missing => load_cases rest
      | .unreadable => .error ()
      | .nonList => load_cases rest
      | .parsed cs => (load_cases rest).map (fun acc => cs ++ acc)

/-- Weight-table key: a numeric feature or the categorical lunar phase. -/
inductive WKey where
  | num (k : FKey)
  | luna_fase
deriving DecidableEq

/-- Python dict `WEIGHTS` (one insertion-ordered table per tier-A domain). -/
def WEIGHTS : Dom → List (WKey × ℚ)
  | .almacigos =>
      [(.num .temp_media, 23/100), (.num .humedad, 23/100),
       (.num .prec_total_mm, 22/100), (.num .dias_lluvia, 4/100),
       (.num .brillo_solar, 3/100), (.num .altitud_msnm, 8/100),
       (.num .sombra_pct, 5/100), (.num .mes_sin, 15/1000),
       (.num .mes_cos, 15/1000), (.num .edad_vivero_meses, 8/100),
       (.luna_fase, 6/100)]
  | .fertilizacion_sin_analisis =>
      [(.num .temp_media, 15/100), (.num .humedad, 20/100),
       (.num .prec_total_mm, 20/100), (.num .dias_lluvia, 5/100),
       (.num .brillo_solar, 5/100), (.num .altitud_msnm, 10/100),
       (.num .sombra_pct, 5/100), (.num .mes_sin, 25/1000),
       (.num .mes_cos, 25/1000), (.num .meses_despues_siembra, 15/100),
       (.luna_fase, 7/100)]
  | .broca =>
      [(.num .temp_media, 30/100), (.num .humedad, 25/100),
       (.num .prec_total_mm, 20/100), (.num .dias_lluvia, 5/100),
       (.num .brillo_solar, 5/100), (.num .altitud_msnm, 10/100),
       (.num .sombra_pct, 3/100), (.num .mes_sin, 1/100),
       (.num .mes_cos, 1/100)]

/-- Python dict `WEIGHTS_B` (all keys numeric). -/
def WEIGHTS_B : List (WKey × ℚ) :=
  [(.num .temp_media, 28/100), (.num .humedad, 22/100),
   (.num .prec_total_mm, 22/100), (.num .dias_lluvia, 6/100),
   (.num .brillo_solar, 6/100), (.num .altitud_msnm, 10/100),
   (.num .sombra_pct, 4/100), (.num .mes_sin, 1/100),
   (.num .mes_cos, 1/100)]

/-- A query or tier-A case feature vector: the fixed numeric key schema plus
the categorical `luna_fase` entry. -/
structure Vec where
  q : FKey → Option ℚ
  luna_fase : Option String

/-- Per-feature similarity used inside the weighted loops.  It mirrors the
loop body of `similarity_weighted_A`: the `continue` on a `None` query-side
value and the `continue` on a `None` similarity both land in `none`. -/
def sim_en (qvec cvec : Vec) : WKey → Option ℚ
  | .luna_fase =>
      match qvec.luna_fase with
      | none => none
      | some _ => sim_luna qvec.luna_fase cvec.luna_fase
  | .num k =>
      match qvec.q k with
      | none => none
      | some _ => sim_numeric (qvec.q k) (cvec.q k) k

/-- One iteration of the accumulation loop of `similarity_weighted_A` /
`similarity_weighted_B` (numerator, denominator). -/
def paso_sim (qvec cvec : Vec) (acc : ℚ × ℚ) (kw : WKey × ℚ) : ℚ × ℚ :=
  match sim_en qvec cvec kw.1 with
  | none => acc
  | some s => (acc.1 + kw.2 * clip01 s, acc.2 + kw.2)

/-- Weighted similarity over an explicit weight table (the body shared by
`similarity_weighted_A` and the base score of `similarity_weighted_B`). -/
def simA_con (ws : List (WKey × ℚ)) (qvec cvec : Vec) : ℚ :=
  let acc := ws.foldl (paso_sim qvec cvec) (0, 0)
  if acc.2 ≤ 0 then 0 else clip01 (acc.1 / acc.2)

/-- Python `similarity_weighted_A`. -/
def similarity_weighted_A (qvec cvec : Vec) (domain : Dom) : ℚ :=
  simA_con (WEIGHTS domain) qvec cvec

/-- A tier-B case vector: station name plus the flat numeric features (its
dict has no `luna_fase` and no domain extras, so those read as `none`). -/
structure BVec where
  estacion : Option String := none
  vec : Vec

/-- Python `similarity_weighted_B` with an explicit weight table. -/
def simB_con (ws : List (WKey × ℚ)) (qvec : Vec) (cvec : BVec)
    (query_alt : Option ℚ) : ℚ :=
  clip01 (simA_con ws qvec cvec.vec *
    station_bonus query_alt cvec.estacion (cvec.vec.q FKey.altitud_msnm))

/-- Python `similarity_weighted_B`. -/
def similarity_weighted_B (qvec : Vec) (cvec : BVec) (query_alt : Option ℚ) : ℚ :=
  simB_con WEIGHTS_B qvec cvec query_alt

/-- Pipeline input (`params` dict after CLI/API validation).  `data` holds
what is found at each store path; `save_case_to` the retention target. -/
structure Params where
  data : List Source
  tipo : Tipo
  ubicacion : Option String := none
  altitud : Option ℚ := none
  mes : String
  variedad : Option String := none
  sombra : Option ℚ := none
  temp_media : Option ℚ := none
  humedad : Option ℚ := none
  prec_total_mm : Option ℚ := none
  dias_lluvia : Option ℚ := none
  brillo_solar : Option ℚ := none
  meses_despues_siembra : Option ℚ := none
  edad_vivero_meses : Option ℚ := none
  luna : Option String := none
  fase : Option String := none
  k : Int
  kB : Int
  usar_extras_b : Bool := true
  save_case_to : Option Source := none
deriving DecidableEq

/-- Python `extract_input_vector`. -/
def extract_input_vector (sincos : Nat → ℚ × ℚ) (p : Params) : Vec :=
  let mc := mes_to_sin_cos sincos (some p.mes)
  { q := fun k =>
      match k with
      | .temp_media => p.temp_media
      | .humedad => p.humedad
      | .prec_total_mm => p.prec_total_mm
      | .dias_lluvia => p.dias_lluvia
      | .brillo_solar => p.brillo_solar
      | .altitud_msnm => p.altitud
      | .sombra_pct => p.sombra
      | .mes_sin => some mc.1
      | .mes_cos => some mc.2
      | .meses_despues_siembra => p.meses_despues_siembra
      | .edad_vivero_meses => p.edad_vivero_meses,
    luna_fase := p.luna }

/-- Python `extract_case_vector_A`. -/
def extract_case_vector_A (sincos : Nat → ℚ × ℚ) (c : Case) : Vec :=
  let ctx := c.contexto.getD {}
  let cli := c.clima.getD {}
  let mc := mes_to_sin_cos sincos ctx.mes
  let evm : Option ℚ :=
    match (match c.almacigos_meta with
           | some am => am.edad_vivero_meses
           | none => none) with
    | some v => some v
    | none => ctx.edad_vivero_meses
  { q := fun k =>
      match k with
      | .temp_media => cli.temp_media
      | .humedad => cli.humedad
      | .prec_total_mm => cli.prec_total_mm
      | .dias_lluvia => cli.dias_lluvia
      | .brillo_solar => cli.brillo_solar
      | .altitud_msnm => ctx.altitud_msnm
      | .sombra_pct => ctx.sombra_pct
      | .mes_sin => some mc.1
      | .mes_cos => some mc.2
      | .meses_despues_siembra =>
          match c.fertilizacion_sin_suelo with
          | some f => f.meses_despues_siembra
          | none => none
      | .edad_vivero_meses => evm,
    luna_fase := c.luna_fase }

/-- Python `extract_case_vector_B`.  The tier-B dict has no entries for
`meses_despues_siembra`, `edad_vivero_meses` or `luna_fase`. -/
def extract_case_vector_B (sincos : Nat → ℚ × ℚ) (c : Case) : BVec :=
  let ctx := c.contexto.getD {}
  let cli := c.clima.getD {}
  let mc := mes_to_sin_cos sincos ctx.mes
  { estacion := ctx.estacion,
    vec :=
      { q := fun k =>
          match k with
          | .temp_media => cli.temp_media
          | .humedad => cli.humedad
          | .prec_total_mm => cli.prec_total_mm
          | .dias_lluvia => cli.dias_lluvia
          | .brillo_solar => cli.brillo_solar
          | .altitud_msnm => ctx.altitud_msnm
          | .sombra_pct => ctx.sombra_pct
          | .mes_sin => some mc.1
          | .mes_cos => some mc.2
          | .meses_despues_siembra => none
          | .edad_vivero_meses => none,
        luna_fase := none } }

/-- Applicability metadata returned by `top_k_A`. -/
structure Aplicabilidad where
  aplica : Bool
  razon_no_aplica : Option String
deriving DecidableEq

/-- Python `top_k_A`: gate, score, stable sort by descending similarity,
take `max(1, k)`. -/
def top_k_A (sincos : Nat → ℚ × ℚ) (cases : List Case) (query_vec : Vec)
    (domain : Dom) (k : Int) (fase_actual : String) (mds : Option ℚ) :
    List (ℚ × Case) × Aplicabilidad :=
  let ar := dominio_aplica domain fase_actual mds
  if ar.1 = false then ([], ⟨false, ar.2⟩)
  else
    let hits := (cases.filter (fun c => c.tipo == some (domStr domain))).map
      (fun c => (similarity_weighted_A query_vec (extract_case_vector_A sincos c) domain, c))
    let ordenados := List.insertionSort (fun a b : ℚ × Case => b.1 ≤ a.1) hits
    (ordenados.take (max 1 k).toNat, ⟨true, none⟩)

/-- Python `recs = case.get("recomendaciones") or {}`. -/
def recs_de (c : Case) : Recs := c.recomendaciones.getD {}

/-- One tier-B extra item. -/
structure Extra where
  texto : String
  categoria_b : String
  fuente : String
  estacion : Option String
  similitud : ℚ
  id_caso : Option String
deriving DecidableEq

/-- Round-half-to-even on rationals, idealising Python `round(x, 3)`. -/
def redondeo_medio_par (q : ℚ) : ℤ :=
  let f := ⌊q⌋
  let r := q - (f : ℚ)
  if r < 1/2 then f
  else if 1/2 < r then f + 1
  else if f % 2 = 0 then f else f + 1

/-- Python `round(float(s), 3)`. -/
def round3 (q : ℚ) : ℚ := (redondeo_medio_par (q * 1000) : ℚ) / 1000

/-- Python `extras_from_B`. -/
def extras_from_B (sincos : Nat → ℚ × ℚ) (cases : List Case) (p : Params)
    (kB : Int) : List Extra × List (ℚ × Case) :=
  let mc := mes_to_sin_cos sincos (some p.mes)
  let qvec : Vec :=
    { q := fun k =>
        match k with
        | .temp_media => p.temp_media
        | .humedad => p.humedad
        | .prec_total_mm => p.prec_total_mm
        | .dias_lluvia => p.dias_lluvia
        | .brillo_solar => p.brillo_solar
        | .altitud_msnm => p.altitud
        | .sombra_pct => p.sombra
        | .mes_sin => some mc.1
        | .mes_cos => some mc.2
        | .meses_despues_siembra => none
        | .edad_vivero_meses => none,
      luna_fase := none }
  let elegibles := cases.filter (fun c =>
    (c.tipo == some "historico") ||
      (match (c.contexto.getD {}).estacion with
       | some s => s != ""
       | none => false))
  let scored := elegibles.map (fun c =>
    (similarity_weighted_B qvec (extract_case_vector_B sincos c) p.altitud, c))
  let top := (List.insertionSort (fun a b : ℚ × Case => b.1 ≤ a.1) scored).take
    (max 1 kB).toNat
  let extras := top.foldl (fun acc sc =>
    acc ++ (recs_de sc.2).categorias.filterMap (fun ct =>
      if ct.2 = "" then none
      else some { texto := recortar ct.2,
                  categoria_b := ct.1,
                  fuente := "Dataset B (histórico por estación)",
                  estacion := (sc.2.contexto.getD {}).estacion,
                  similitud := round3 sc.1,
                  id_caso := sc.2.id })) []
  (extras, top)

/-- Python list `COMPONENTES_FERT`. -/
def COMPONENTES_FERT : List String := ["urea", "DAP", "KCl", "NPK", "MgO"]

/-- Character-list prefix test. -/
def empieza_con : List Char → List Char → Bool
  | [], _ => true
  | _ :: _, [] => false
  | a :: as, b :: bs => a == b && empieza_con as bs

/-- Character-list substring test (`pat` occurs inside the second list). -/
def contiene_lista (pat : List Char) : List Char → Bool
  | [] => pat.isEmpty
  | c :: resto => empieza_con pat (c :: resto) || contiene_lista pat resto

/-- Case-insensitive literal substring search: `re.search(comp, txt, re.IGNORECASE)`
for the (metacharacter-free) component names. -/
def contiene_ci (txt pat : String) : Bool :=
  contiene_lista (a_minusculas pat).data (a_minusculas txt).data

/-- Python `extraer_componentes`: each matching component is appended, in
vocabulary order, lower-cased. -/
def extraer_componentes (txt : String) : List String :=
  (COMPONENTES_FERT.filter (fun comp => contiene_ci txt comp)).map a_minusculas

/-- Numeric value of a digit run. -/
def digitos_a_nat (ds : List Char) : Nat :=
  ds.foldl (fun n c => 10 * n + (c.toNat - Char.toNat '0')) 0

/-- Attempt to match the regex `(\d+)\s*MDS` at the head of the list.  Since
the digit class, the whitespace class and the letter `M` are pairwise
disjoint, the greedy maximal-run reading is exactly the backtracking
semantics of the Python pattern. -/
def coincide_mds_en (cs : List Char) : Option Nat :=
  let ds := cs.takeWhile Char.isDigit
  if ds = [] then none
  else
    let resto := (cs.drop ds.length).dropWhile Char.isWhitespace
    if resto.take 3 = ['M', 'D', 'S'] then some (digitos_a_nat ds) else none

/-- Leftmost match of `(\d+)\s*MDS` (the scan of `re.search`). -/
def busca_mds : List Char → Option Nat
  | [] => none
  | c :: resto =>
      match coincide_mds_en (c :: resto) with
      | some n => some n
      | none => busca_mds resto

/-- Attempt to match `≤\s*(\d+)\s*MDS` at the head of the list. -/
def coincide_mds2_en (cs : List Char) : Option Nat :=
  match cs with
  | c :: resto =>
      if c = '≤' then coincide_mds_en (resto.dropWhile Char.isWhitespace)
      else none
  | [] => none

/-- Leftmost match of `≤\s*(\d+)\s*MDS`. -/
def busca_mds2 : List Char → Option Nat
  | [] => none
  | c :: resto =>
      match coincide_mds2_en (c :: resto) with
      | some n => some n
      | none => busca_mds2 resto

/-- Python `extraer_mds_de_texto`: first textual form, then the second. -/
def extraer_mds_de_texto (txt : String) : Option ℚ :=
  match busca_mds txt.data with
  | some n => some (n : ℚ)
  | none =>
      match busca_mds2 txt.data with
      | some n => some (n : ℚ)
      | none => none

/-- Distance of a technical line to the query MDS: `abs(mds_query - mds_txt)`
when both are present, otherwise the large constant `999.0`. -/
def dist_mds (mds_query : Option ℚ) (texto : String) : ℚ :=
  match mds_query, extraer_mds_de_texto texto with
  | some a, some b => |a - b|
  | _, _ => 999

/-- Python set `add`: sets are modelled as insertion-ordered duplicate-free
lists (the final `sorted(...)` makes the iteration order irrelevant). -/
def agregar_set (l : List String) (t : String) : List String :=
  if t ∈ l then l else l ++ [t]

/-- First-match association-list lookup (Python dict read). -/
def buscar {α β : Type} [DecidableEq α] (k : α) : List (α × β) → Option β
  | [] => none
  | e :: r => if e.1 = k then some e.2 else buscar k r

/-- Python dict write `mejor_por_componente[comp] = (dist, texto)` guarded by
`actual is None or dist < actual[0]`: a new key is appended, an existing key
is updated in place. -/
def actualizar_mejor (m : List (String × ℚ × String)) (comp : String)
    (dist : ℚ) (texto : String) : List (String × ℚ × String) :=
  match buscar comp m with
  | none => m ++ [(comp, dist, texto)]
  | some dt =>
      if dist < dt.1 then
        m.map (fun e => if e.1 = comp then (comp, dist, texto) else e)
      else m

/-- State of the fertilisation-fusion loop. -/
structure FusState where
  genericas : List String := []
  mejor : List (String × ℚ × String) := []

/-- Body of the fertilisation-fusion loop for one (already stripped,
nonempty) technical line. -/
def procesar_linea (mds_query : Option ℚ) (st : FusState) (texto : String) :
    FusState :=
  let comps := extraer_componentes texto
  if comps.isEmpty then { st with genericas := agregar_set st.genericas texto }
  else
    let dist := dist_mds mds_query texto
    { st with mejor :=
        comps.foldl (fun m comp => actualizar_mejor m comp dist texto) st.mejor }

/-- Python `sorted` on strings (lexicographic by code point). -/
def ordenar_str (l : List String) : List String :=
  List.insertionSort (fun a b : String => a ≤ b) l

/-- Python `combinar_recs_fertilizacion`. -/
def combinar_recs_fertilizacion (hits_fert : List (ℚ × Case))
    (mds_query : Option ℚ) : List String :=
  let st := hits_fert.foldl (fun st sc =>
    ((recs_de sc.2).tecnicas).foldl (fun st txt =>
      if txt = "" then st else procesar_linea mds_query st (recortar txt)) st) {}
  ordenar_str (st.mejor.foldl (fun acc e => agregar_set acc e.2.2) st.genericas)

/-- Body of the generic dedup loop: `t = (t or "").strip(); if t and t not in seen`. -/
def agregar_no_vacia (l : List String) (t : String) : List String :=
  let t := recortar t
  if t ≠ "" ∧ t ∉ l then l ++ [t] else l

/-- Python `combinar_recs_genericas` (returns `(tecnicas, tradicionales)`). -/
def combinar_recs_genericas (hits_dom : List (ℚ × Case)) :
    List String × List String :=
  hits_dom.foldl (fun acc sc =>
    (((recs_de sc.2).tecnicas).foldl agregar_no_vacia acc.1,
     ((recs_de sc.2).tradicionales).foldl agregar_no_vacia acc.2)) ([], [])

/-- One update of the grouping dict of `agrupar_extras_B`. -/
def agregar_grupo (grupos : List (String × List String)) (cat txt : String) :
    List (String × List String) :=
  match buscar cat grupos with
  | none => grupos ++ [(cat, [txt])]
  | some l =>
      if txt ∈ l then grupos
      else grupos.map (fun g => if g.1 = cat then (cat, l ++ [txt]) else g)

/-- Python `agrupar_extras_B`. -/
def agrupar_extras_B (extras : List Extra) : List (String × List String) :=
  extras.foldl (fun grupos e =>
    let cat := if e.categoria_b = "" then "general" else e.categoria_b
    let txt := recortar e.texto
    if txt = "" then grupos else agregar_grupo grupos cat txt) []

/-- Existing records read back by `append_case_to_yaml`: a missing store, a
read/parse failure (caught by its `try/except`) or a non-list shape all
default to the empty list. -/
def casos_existentes : Source → List Case
  | .parsed l => l
  | _ => []

/-- Python format `f"NEW-{n:04d}"`: zero-pad to at least four digits. -/
def pad4 (n : Nat) : String :=
  let s := toString n
  ⟨List.replicate (4 - s.length) '0'⟩ ++ s

/-- Python `append_case_to_yaml`: returns the assigned id and the full store
content written back. -/
def append_case_to_yaml (store : Source) (new_case : Case) :
    String × List Case :=
  let cases_existing := casos_existentes store
  let next_id := cases_existing.length + 1
  let nid := "NEW-" ++ pad4 next_id
  (nid, cases_existing ++ [{ new_case with id := some nid }])

/-- One ranked hit of the response. -/
structure HitRes where
  similitud : ℚ
  id : Option String
  tipo : Option String
  ubicacion : Option String
deriving DecidableEq

/-- Fused recommendation pair of the response. -/
structure RecSet where
  tecnicas : List String
  tradicionales : List String
deriving DecidableEq

/-- Per-domain block of the response. -/
structure DomResult where
  hits : List HitRes
  recomendaciones : RecSet
  aplicabilidad : Aplicabilidad
deriving DecidableEq

/-- Query echo of the response. -/
structure Consulta where
  tipo : Tipo
  k : Int
  kB : Int
  usar_extras_b : Bool
  fase : String
deriving DecidableEq

/-- The assembled response object `output` of `run_cbr`. -/
structure Output where
  consulta : Consulta
  resultados_A : List (Dom × DomResult)
  extras_B_raw : List Extra
  extras_B_agrupados : List (String × List String)
  saved_case_id : Option String
deriving DecidableEq

/-- Step 3 of `run_cbr` for one domain: hit summaries plus fused
recommendations, emptied when the gate said inapplicable. -/
def armar_resultado (dom : Dom) (klist : List (ℚ × Case))
    (meta : Aplicabilidad) (mds : Option ℚ) : DomResult :=
  let hits_res := klist.map (fun sc =>
    { similitud := round3 sc.1, id := sc.2.id, tipo := sc.2.tipo,
      ubicacion := (sc.2.contexto.getD {}).ubicacion : HitRes })
  let recomendaciones :=
    if meta.aplica = false then ⟨[], []⟩
    else if dom = Dom.fertilizacion_sin_analisis then
      ⟨combinar_recs_fertilizacion klist mds, (combinar_recs_genericas klist).2⟩
    else
      ⟨(combinar_recs_genericas klist).1, (combinar_recs_genericas klist).2⟩
  ⟨hits_res, recomendaciones, meta⟩

/-- Steps 1 and 3 of `run_cbr` over the selected domains. -/
def resultados_of (sincos : Nat → ℚ × ℚ) (cases : List Case) (query_vec : Vec)
    (dominios : List Dom) (k : Int) (fase_actual : String) (mds : Option ℚ) :
    List (Dom × DomResult) :=
  dominios.map (fun dom =>
    let tk := top_k_A sincos cases query_vec dom k fase_actual mds
    (dom, armar_resultado dom tk.1 tk.2 mds))

/-- Phase used by `run_cbr`: `params.get("fase") or inferir_fase(...)`
(the Python `or` also discards an empty string). -/
def fase_resuelta (params : Params) : String :=
  match params.fase with
  | some f =>
      if f = "" then
        inferir_fase params.altitud params.mes params.meses_despues_siembra
      else f
  | none => inferir_fase params.altitud params.mes params.meses_despues_siembra

/-- Domain list selected by `params["tipo"]`. -/
def dominios_de : Tipo → List Dom
  | .auto => [.almacigos, .fertilizacion_sin_analisis, .broca]
  | .dominio d => [d]

/-- Python exceptions that can escape `run_cbr`. -/
inductive PyExc where
  | yaml_load_error
  | unbound_local_output
deriving DecidableEq

/-- The new case synthesised in step 4 of `run_cbr` (before the id is
assigned by `append_case_to_yaml`). -/
def out_case_of (params : Params) (fase_actual : String)
    (resultados : List (Dom × DomResult)) : Case :=
  let clave : Dom :=
    match params.tipo with
    | .auto => .fertilizacion_sin_analisis
    | .dominio d => d
  { id := none,
    tipo := some (tipo_str params.tipo),
    contexto := some
      { ubicacion := params.ubicacion,
        altitud_msnm := params.altitud,
        mes := some params.mes,
        variedad := params.variedad,
        sombra_pct := params.sombra,
        estacion := none,
        edad_vivero_meses := params.edad_vivero_meses },
    clima := some
      { temp_media := params.temp_media,
        humedad := params.humedad,
        prec_total_mm := params.prec_total_mm,
        dias_lluvia := params.dias_lluvia,
        brillo_solar := params.brillo_solar },
    almacigos_meta :=
      if params.tipo = Tipo.auto ∨ params.tipo = Tipo.dominio Dom.almacigos then
        some { edad_vivero_meses := params.edad_vivero_meses }
      else none,
    fertilizacion_sin_suelo :=
      if params.tipo = Tipo.auto ∨
          params.tipo = Tipo.dominio Dom.fertilizacion_sin_analisis then
        some { meses_despues_siembra := params.meses_despues_siembra }
      else none,
    luna_fase := params.luna,
    fase_fenologica := some fase_actual,
    recomendaciones := (buscar clave resultados).map (fun dr =>
      { tecnicas := dr.recomendaciones.tecnicas,
        tradicionales := dr.recomendaciones.tradicionales,
        categorias := [] }),
    fuente_caso_base := some "CBR generado" }

/-- Python `run_cbr`.  The `verbose` branch references the local `output`
before its assignment, so it raises `UnboundLocalError`; only the
`verbose=False` path (the API path) can return the response. -/
def run_cbr (sincos : Nat → ℚ × ℚ) (params : Params) (verbose : Bool) :
    Except PyExc (Option Output) :=
  match load_cases params.data with
  | .error _ => .error .yaml_load_error
  | .ok cases =>
      if cases.isEmpty then .ok none
      else
        let fase_actual := fase_resuelta params
        let mds := params.meses_despues_siembra
        let query_vec := extract_input_vector sincos params
        let dominios := dominios_de params.tipo
        let resultados := resultados_of sincos cases query_vec dominios
          params.k fase_actual mds
        let extrasPar :=
          if params.usar_extras_b then extras_from_B sincos cases params params.kB
          else ([], [])
        let extras := extrasPar.1
        let extras_agrupados :=
          if params.usar_extras_b then agrupar_extras_B extras else []
        let saved_id :=
          match params.save_case_to with
          | none => none
          | some store =>
              some (append_case_to_yaml store
                (out_case_of params fase_actual resultados)).1
        if verbose then .error .unbound_local_output
        else .ok (some
          { consulta :=
              { tipo := params.tipo, k := params.k, kB := params.kB,
                usar_extras_b := params.usar_extras_b, fase := fase_actual },
            resultados_A := resultados,
            extras_B_raw := extras,
            extras_B_agrupados := extras_agrupados,
            saved_case_id := saved_id })

/-! ### Specification-side definitions used to state the claims -/

/-- Phase of a 4-month group (0, 1, 2 in order). -/
def fase_grupo : Nat → String
  | 0 => "vivero_establecimiento"
  | 1 => "floracion_llenado"
  | _ => "cosecha_poscosecha"

/-- Claim-side reformulation of the altitude+month lookup of `inferir_fase`:
two altitude bands (≥1500 m versus <1500 m), each band mapping groups of four
contiguous months — cyclically offset by one month in the low band — to the
three phases, in calendar order. -/
def fase_por_bandas (alt : ℚ) (idx : Nat) : String :=
  let despl := if 1500 ≤ alt then 0 else 1
  fase_grupo (((idx + despl) % 12) / 4)

/-- Ordered stream of processed technical lines of a hit list: per case (in
hit order), falsy entries dropped, the rest stripped. -/
def lineas_tecnicas : List (ℚ × Case) → List String
  | [] => []
  | sc :: r =>
      ((recs_de sc.2).tecnicas).filterMap
        (fun t => if t = "" then none else some (recortar t)) ++ lineas_tecnicas r

/-- Candidate lines of one chemical component: the processed technical lines
whose component token list contains it. -/
def candidatas (hits : List (ℚ × Case)) (comp : String) : List String :=
  (lineas_tecnicas hits).filter (fun t => decide (comp ∈ extraer_componentes t))

/-- One comparison step of the first-minimum selection: the incumbent is
kept unless the challenger is strictly closer to the query MDS. -/
def paso_min (q : Option ℚ) (best : Option String) (t : String) :
    Option String :=
  match best with
  | none => some t
  | some w => if dist_mds q t < dist_mds q w then some t else some w

/-- First element of a line list minimising the distance to the query MDS
(ties keep the earlier line). -/
def primer_min (q : Option ℚ) (ls : List String) : Option String :=
  ls.foldl (paso_min q) none

/-- Challenge an optional `(distance, line)` incumbent with a new line:
the pointwise form of the dict update of `combinar_recs_fertilizacion`. -/
def desafiar (b : Option (ℚ × String)) (d : ℚ) (t : String) :
    Option (ℚ × String) :=
  match b with
  | none => some (d, t)
  | some dw => if d < dw.1 then some (d, t) else some dw

/-- Weight/similarity pairs of the comparable features of a weight table:
the features the weighted loop actually accumulates. -/
def sims_comparables (ws : List (WKey × ℚ)) (qvec cvec : Vec) :
    List (ℚ × ℚ) :=
  ws.filterMap (fun kw => (sim_en qvec cvec kw.1).map (fun s => (kw.2, s)))

/-- The vector has no value for the given weight key (Python `None`). -/
def vec_nulo_en (v : Vec) : WKey → Prop
  | .luna_fase => v.luna_fase = none
  | .num k => v.q k = none

/-! ### Concrete fixtures for the witnesses and counterexamples -/

/-- Stand-in for the month encoding table: the true values
`(sin(2πi/12), cos(2πi/12))` are irrational, and no verified property
depends on them. -/
def sincos_ej : Nat → ℚ × ℚ := fun _ => (0, 1)

/-- Example fertilisation case carrying a 6-MDS urea dose line. -/
def caso_fert6 : Case :=
  { tipo := some "fertilizacion_sin_analisis",
    contexto := some { altitud_msnm := some 1650, mes := some "abril",
                       ubicacion := some "Popayan" },
    clima := some { temp_media := some 20, humedad := some 80 },
    fertilizacion_sin_suelo := some { meses_despues_siembra := some 6 },
    recomendaciones := some { tecnicas := ["Aplicar urea 6 MDS", "Riego ligero"],
                              tradicionales := ["Abono organico"] } }

/-- Example fertilisation case carrying an 18-MDS urea dose line. -/
def caso_fert18 : Case :=
  { tipo := some "fertilizacion_sin_analisis",
    fertilizacion_sin_suelo := some { meses_despues_siembra := some 18 },
    recomendaciones := some { tecnicas := ["Aplicar urea 18 MDS"] } }

/-- The fertilisation-fusion example of the specification: two urea
candidates with markers 6 MDS and 18 MDS, in descending similarity order. -/
def hits_ej : List (ℚ × Case) := [(9/10, caso_fert6), (8/10, caso_fert18)]

/-- Concrete pipeline input: one loaded fertilisation case, `tipo=auto`,
MDS=10, an empty retention target store. -/
def params_ej : Params :=
  { data := [Source.parsed [caso_fert6]], tipo := .auto, altitud := some 1678,
    mes := "noviembre", meses_despues_siembra := some 10, k := 3, kB := 1,
    usar_extras_b := false, save_case_to := some (Source.parsed []) }

/-- Pipeline input whose only store raises on read. -/
def params_err : Params :=
  { data := [Source.unreadable], tipo := .auto, mes := "enero", k := 3, kB := 1 }

/-- The case `run_cbr params_ej` synthesises for retention (step 4). -/
def caso_retenido_ej : Case :=
  out_case_of params_ej (fase_resuelta params_ej)
    (resultados_of sincos_ej [caso_fert6] (extract_input_vector sincos_ej params_ej)
      (dominios_de params_ej.tipo) params_ej.k (fase_resuelta params_ej)
      params_ej.meses_despues_siembra)

/-- Query vector fixture: temperature and altitude present, the rest null. -/
def vec_q_ej : Vec :=
  { q := fun k =>
      match k with
      | .temp_media => some 20
      | .altitud_msnm => some 1650
      | _ => none,
    luna_fase := some "llena" }

/-- Case vector fixture comparable with `vec_q_ej` on the same features. -/
def vec_c_ej : Vec :=
  { q := fun k =>
      match k with
      | .temp_media => some 22
      | .altitud_msnm => some 1600
      | _ => none,
    luna_fase := some "creciente" }

/-- Tier-B case vector fixture. -/
def bvec_ej : BVec := { estacion := some "Estacion_Tambo", vec := vec_c_ej }

/-! ### Helper lemmas -/

theorem indice_mes_lt (s : String) : indice_mes s < 12 := by
  unfold indice_mes
  split
  · next h =>
      have h2 := List.indexOf_lt_length.mpr h
      simpa [MESES] using h2
  · norm_num

theorem bandas_eq (alt : ℚ) (idx : Nat) (h12 : idx < 12) :
    (if 1500 ≤ alt then
      if idx ∈ [0, 1, 2, 3] then "vivero_establecimiento"
      else if idx ∈ [4, 5, 6, 7] then "floracion_llenado"
      else "cosecha_poscosecha"
    else
      if idx ∈ [11, 0, 1, 2] then "vivero_establecimiento"
      else if idx ∈ [3, 4, 5, 6] then "floracion_llenado"
      else "cosecha_poscosecha") = fase_por_bandas alt idx := by
  by_cases halt : (1500 : ℚ) ≤ alt <;>
    interval_cases idx <;>
    simp [fase_por_bandas, fase_grupo, halt]

theorem clip01_nonneg (x : ℚ) : 0 ≤ clip01 x := le_max_left 0 _

theorem clip01_le_one (x : ℚ) : clip01 x ≤ 1 :=
  max_le (by norm_num) (min_le_left _ _)

theorem sims_comparables_cons_none (qvec cvec : Vec) (kw : WKey × ℚ)
    (ws : List (WKey × ℚ)) (hf : sim_en qvec cvec kw.1 = none) :
    sims_comparables (kw :: ws) qvec cvec = sims_comparables ws qvec cvec := by
  simp [sims_comparables, List.filterMap_cons, hf]

theorem sims_comparables_cons_some (qvec cvec : Vec) (kw : WKey × ℚ)
    (ws : List (WKey × ℚ)) (s : ℚ) (hf : sim_en qvec cvec kw.1 = some s) :
    sims_comparables (kw :: ws) qvec cvec =
      (kw.2, s) :: sims_comparables ws qvec cvec := by
  simp [sims_comparables, List.filterMap_cons, hf]

theorem foldl_paso_sim (qvec cvec : Vec) (ws : List (WKey × ℚ)) :
    ∀ a b : ℚ,
      ws.foldl (paso_sim qvec cvec) (a, b) =
        (a + ((sims_comparables ws qvec cvec).map (fun p => p.1 * clip01 p.2)).sum,
         b + ((sims_comparables ws qvec cvec).map Prod.fst).sum) := by
  induction ws with
  | nil => intro a b; simp [sims_comparables]
  | cons kw ws ih =>
      intro a b
      cases h : sim_en qvec cvec kw.1 with
      | none =>
          simp only [List.foldl_cons, paso_sim, h]
          rw [ih, sims_comparables_cons_none qvec cvec kw ws h]
      | some s =>
          simp only [List.foldl_cons, paso_sim, h]
          rw [ih, sims_comparables_cons_some qvec cvec kw ws s h]
          simp only [List.map_cons, List.sum_cons, Prod.mk.injEq]
          constructor <;> ring

theorem simA_con_formula (ws : List (WKey × ℚ)) (qvec cvec : Vec) :
    simA_con ws qvec cvec =
      if ((sims_comparables ws qvec cvec).map Prod.fst).sum ≤ 0 then 0
      else clip01
        (((sims_comparables ws qvec cvec).map (fun p => p.1 * clip01 p.2)).sum /
          ((sims_comparables ws qvec cvec).map Prod.fst).sum) := by
  unfold simA_con
  rw [foldl_paso_sim]
  simp

theorem sim_en_none_of_nulo (qvec cvec : Vec) (k : WKey)
    (h : vec_nulo_en qvec k) : sim_en qvec cvec k = none := by
  cases k with
  | luna_fase =>
      simp only [vec_nulo_en] at h
      simp [sim_en, h]
  | num fk =>
      simp only [vec_nulo_en] at h
      simp [sim_en, h]

theorem sims_comparables_sin_clave (qvec cvec : Vec) (k0 : WKey)
    (h : sim_en qvec cvec k0 = none) (ws : List (WKey × ℚ)) :
    sims_comparables (ws.filter (fun kw => decide (kw.1 ≠ k0))) qvec cvec =
      sims_comparables ws qvec cvec := by
  induction ws with
  | nil => rfl
  | cons kw ws ih =>
      by_cases hk : kw.1 = k0
      · have hne : sim_en qvec cvec kw.1 = none := by rw [hk]; exact h
        have hfc : List.filter (fun kw => decide (kw.1 ≠ k0)) (kw :: ws) =
            List.filter (fun kw => decide (kw.1 ≠ k0)) ws := by
          simp [List.filter_cons, hk]
        rw [hfc, ih, sims_comparables_cons_none qvec cvec kw ws hne]
      · have hfc : List.filter (fun kw => decide (kw.1 ≠ k0)) (kw :: ws) =
            kw :: List.filter (fun kw => decide (kw.1 ≠ k0)) ws := by
          simp [List.filter_cons, hk]
        rw [hfc]
        cases hf : sim_en qvec cvec kw.1 with
        | none =>
            rw [sims_comparables_cons_none qvec cvec kw _ hf,
              sims_comparables_cons_none qvec cvec kw ws hf, ih]
        | some s =>
            rw [sims_comparables_cons_some qvec cvec kw _ s hf,
              sims_comparables_cons_some qvec cvec kw ws s hf, ih]

theorem simA_con_acotada (ws : List (WKey × ℚ)) (qvec cvec : Vec) :
    0 ≤ simA_con ws qvec cvec ∧ simA_con ws qvec cvec ≤ 1 := by
  rw [simA_con_formula]
  split
  · exact ⟨le_refl 0, by norm_num⟩
  · exact ⟨clip01_nonneg _, clip01_le_one _⟩

/-- C5.  Renormalization law: the weighted similarity equals
Σ(weight·sim)/Σ(weight) over the comparable features only; a feature null on
both sides can equivalently be removed from the weight table (numerator and
denominator alike); with no comparable feature the score is 0; and the score
always lies in [0,1] — for tier A (any weight table, hence any domain) and
for tier B including its station bonus. -/
theorem renormalizacion (ws : List (WKey × ℚ)) (qvec cvec : Vec)
    (cvecB : BVec) (qa : Option ℚ) (k0 : WKey) :
    (simA_con ws qvec cvec =
      if ((sims_comparables ws qvec cvec).map Prod.fst).sum ≤ 0 then 0
      else clip01
        (((sims_comparables ws qvec cvec).map (fun p => p.1 * clip01 p.2)).sum /
          ((sims_comparables ws qvec cvec).map Prod.fst).sum))
    ∧ (vec_nulo_en qvec k0 → vec_nulo_en cvec k0 →
        simA_con ws qvec cvec =
          simA_con (ws.filter (fun kw => decide (kw.1 ≠ k0))) qvec cvec)
    ∧ ((∀ kw ∈ ws, sim_en qvec cvec kw.1 = none) → simA_con ws qvec cvec = 0)
    ∧ (0 ≤ simA_con ws qvec cvec ∧ simA_con ws qvec cvec ≤ 1)
    ∧ (vec_nulo_en qvec k0 → vec_nulo_en cvecB.vec k0 →
        simB_con ws qvec cvecB qa =
          simB_con (ws.filter (fun kw => decide (kw.1 ≠ k0))) qvec cvecB qa)
    ∧ ((∀ kw ∈ ws, sim_en qvec cvecB.vec kw.1 = none) →
        simB_con ws qvec cvecB qa = 0)
    ∧ (0 ≤ simB_con ws qvec cvecB qa ∧ simB_con ws qvec cvecB qa ≤ 1) := by
  have hA : ∀ cv : Vec, vec_nulo_en qvec k0 →
      simA_con ws qvec cv = simA_con (ws.filter (fun kw => decide (kw.1 ≠ k0))) qvec cv := by
    intro cv hq
    have h0 : sim_en qvec cv k0 = none := sim_en_none_of_nulo _ _ _ hq
    rw [simA_con_formula, simA_con_formula, sims_comparables_sin_clave qvec cv k0 h0]
  have hZ : ∀ cv : Vec, (∀ kw ∈ ws, sim_en qvec cv kw.1 = none) →
      simA_con ws qvec cv = 0 := by
    intro cv hall
    rw [simA_con_formula]
    have hnil : sims_comparables ws qvec cv = [] := by
      refine List.filterMap_eq_nil_iff.mpr ?_
      intro kw hkw
      simp [hall kw hkw]
    simp [hnil]
  refine ⟨simA_con_formula ws qvec cvec,
    fun hq _ => hA cvec hq,
    hZ cvec,
    simA_con_acotada ws qvec cvec,
    ?_, ?_, ?_⟩
  · intro hq _
    unfold simB_con
    rw [hA cvecB.vec hq]
  · intro hall
    unfold simB_con
    rw [hZ cvecB.vec hall]
    simp [clip01]
  · exact ⟨clip01_nonneg _, clip01_le_one _⟩

theorem mem_agregar_set (l : List String) (t x : String) :
    x ∈ agregar_set l t ↔ x ∈ l ∨ x = t := by
  unfold agregar_set
  split
  · next h =>
      constructor
      · exact Or.inl
      · rintro (hx | rfl)
        · exact hx
        · exact h
  · simp

theorem nodup_agregar_set (l : List String) (t : String) (h : l.Nodup) :
    (agregar_set l t).Nodup := by
  unfold agregar_set
  split
  · exact h
  · next hni =>
      refine List.Nodup.append h (List.nodup_singleton t) ?_
      intro x hx hxt
      rw [List.mem_singleton] at hxt
      exact hni (hxt ▸ hx)

theorem mem_fold_agregar_si (p : String → Bool) (ls : List String) :
    ∀ (g : List String) (x : String),
      (x ∈ ls.foldl (fun g t => if p t then agregar_set g t else g) g) ↔
        x ∈ g ∨ (x ∈ ls ∧ p x = true) := by
  induction ls with
  | nil => simp
  | cons t ls ih =>
      intro g x
      simp only [List.foldl_cons]
      by_cases hp : p t = true
      · rw [if_pos hp, ih, mem_agregar_set]
        constructor
        · rintro ((hx | rfl) | ⟨hls, hpx⟩)
          · exact Or.inl hx
          · exact Or.inr ⟨List.mem_cons_self _ _, hp⟩
          · exact Or.inr ⟨List.mem_cons_of_mem _ hls, hpx⟩
        · rintro (hx | ⟨hmem, hpx⟩)
          · exact Or.inl (Or.inl hx)
          · rcases List.mem_cons.mp hmem with rfl | hls
            · exact Or.inl (Or.inr rfl)
            · exact Or.inr ⟨hls, hpx⟩
      · rw [if_neg hp, ih]
        constructor
        · rintro (hx | ⟨hls, hpx⟩)
          · exact Or.inl hx
          · exact Or.inr ⟨List.mem_cons_of_mem _ hls, hpx⟩
        · rintro (hx | ⟨hmem, hpx⟩)
          · exact Or.inl hx
          · rcases List.mem_cons.mp hmem with rfl | hls
            · exact absurd hpx hp
            · exact Or.inr ⟨hls, hpx⟩

theorem nodup_fold_agregar_si (p : String → Bool) (ls : List String) :
    ∀ g : List String, g.Nodup →
      (ls.foldl (fun g t => if p t then agregar_set g t else g) g).Nodup := by
  induction ls with
  | nil => intro g h; exact h
  | cons t ls ih =>
      intro g h
      simp only [List.foldl_cons]
      by_cases hp : p t = true
      · rw [if_pos hp]; exact ih _ (nodup_agregar_set _ _ h)
      · rw [if_neg hp]; exact ih _ h

theorem genericas_procesar (q : Option ℚ) (st : FusState) (t : String) :
    (procesar_linea q st t).genericas =
      if (extraer_componentes t).isEmpty then agregar_set st.genericas t
      else st.genericas := by
  unfold procesar_linea
  by_cases hc : (extraer_componentes t).isEmpty = true
  · simp [hc]
  · simp [hc]

theorem genericas_fold (q : Option ℚ) (ls : List String) :
    ∀ st : FusState,
      (ls.foldl (procesar_linea q) st).genericas =
        ls.foldl (fun g t =>
          if (extraer_componentes t).isEmpty then agregar_set g t else g)
          st.genericas := by
  induction ls with
  | nil => intro st; rfl
  | cons t ls ih =>
      intro st
      simp only [List.foldl_cons]
      rw [ih, genericas_procesar]

theorem buscar_append {α β : Type} [DecidableEq α] (k : α)
    (m : List (α × β)) (e : α × β) :
    buscar k (m ++ [e]) =
      match buscar k m with
      | some v => some v
      | none => if e.1 = k then some e.2 else none := by
  induction m with
  | nil => simp [buscar]
  | cons a m ih =>
      by_cases ha : a.1 = k
      · simp [buscar, ha]
      · simp [buscar, ha, ih]

theorem buscar_map_update (k c : String) (d : ℚ) (txt : String)
    (m : List (String × ℚ × String)) :
    buscar k (m.map (fun e => if e.1 = c then (c, d, txt) else e)) =
      if k = c then (buscar c m).map (fun _ => (d, txt)) else buscar k m := by
  induction m with
  | nil => simp [buscar]
  | cons a m ih =>
      by_cases hac : a.1 = c
      · by_cases hkc : k = c
        · subst hkc
          simp [buscar, hac]
        · have hck : ¬ c = k := fun h => hkc h.symm
          have hne : ¬ (a.1 = k) := by rw [hac]; exact hck
          simp only [List.map_cons, if_pos hac, buscar, hne, hkc, hck, if_false]
          rw [ih, if_neg hkc]
      · by_cases hak : a.1 = k
        · have hkc : ¬ k = c := fun h => hac (by rw [hak, h])
          simp [buscar, hac, hak, hkc]
        · simp only [List.map_cons, if_neg hac, buscar, hak, if_false]
          exact ih

theorem buscar_actualizar (m : List (String × ℚ × String)) (k c : String)
    (d : ℚ) (txt : String) :
    buscar k (actualizar_mejor m c d txt) =
      if k = c then desafiar (buscar c m) d txt else buscar k m := by
  cases hb : buscar c m with
  | none =>
      have ha : actualizar_mejor m c d txt = m ++ [(c, d, txt)] := by
        unfold actualizar_mejor; rw [hb]
      rw [ha, buscar_append]
      by_cases hkc : k = c
      · subst hkc
        simp [hb, desafiar]
      · have hck : ¬ c = k := fun h => hkc h.symm
        cases hkm : buscar k m with
        | none => simp [hkm, hck, hkc]
        | some v => simp [hkm, hkc]
  | some dt =>
      have ha : actualizar_mejor m c d txt =
          (if d < dt.1 then
            m.map (fun e => if e.1 = c then (c, d, txt) else e)
          else m) := by
        unfold actualizar_mejor; rw [hb]
      rw [ha]
      by_cases hd : d < dt.1
      · rw [if_pos hd, buscar_map_update]
        by_cases hkc : k = c
        · subst hkc
          simp [hb, desafiar, hd]
        · simp [hkc]
      · rw [if_neg hd]
        by_cases hkc : k = c
        · subst hkc
          simp [hb, desafiar, hd]
        · simp [hkc]

theorem componentes_nodup (txt : String) : (extraer_componentes txt).Nodup := by
  have h1 : (COMPONENTES_FERT.map a_minusculas).Nodup := by decide
  exact h1.sublist
    (List.Sublist.map a_minusculas (List.filter_sublist COMPONENTES_FERT))

theorem buscar_fold_comps (d : ℚ) (txt : String) (comps : List String) :
    comps.Nodup →
    ∀ (m : List (String × ℚ × String)) (k : String),
      buscar k (comps.foldl (fun m c => actualizar_mejor m c d txt) m) =
        if k ∈ comps then desafiar (buscar k m) d txt else buscar k m := by
  induction comps with
  | nil => intro _ m k; simp
  | cons c comps ih =>
      intro hnd m k
      have hpair := List.nodup_cons.mp hnd
      have hcni : c ∉ comps := hpair.1
      have hnd' : comps.Nodup := hpair.2
      simp only [List.foldl_cons]
      rw [ih hnd']
      by_cases hk : k ∈ c :: comps
      · rcases List.mem_cons.mp hk with rfl | hkm
        · rw [if_neg hcni, buscar_actualizar, if_pos rfl, if_pos hk]
        · have hkc : k ≠ c := fun h => hcni (h ▸ hkm)
          rw [if_pos hkm, buscar_actualizar, if_neg hkc, if_pos hk]
      · have hk1 : k ∉ comps := fun h => hk (List.mem_cons_of_mem _ h)
        have hkc : k ≠ c := fun h => hk (h ▸ List.mem_cons_self _ _)
        rw [if_neg hk1, buscar_actualizar, if_neg hkc, if_neg hk]

theorem buscar_procesar (q : Option ℚ) (st : FusState) (t k : String) :
    buscar k (procesar_linea q st t).mejor =
      if k ∈ extraer_componentes t then
        desafiar (buscar k st.mejor) (dist_mds q t) t
      else buscar k st.mejor := by
  unfold procesar_linea
  by_cases hc : (extraer_componentes t).isEmpty = true
  · have hnil : extraer_componentes t = [] := List.isEmpty_iff.mp hc
    simp [hc, hnil]
  · rw [if_neg hc]
    exact buscar_fold_comps _ _ _ (componentes_nodup t) _ _

theorem buscar_fold_lineas (q : Option ℚ) (k : String) (ls : List String) :
    ∀ st : FusState,
      buscar k (ls.foldl (procesar_linea q) st).mejor =
        ls.foldl (fun b t =>
          if k ∈ extraer_componentes t then desafiar b (dist_mds q t) t else b)
          (buscar k st.mejor) := by
  induction ls with
  | nil => intro st; rfl
  | cons t ls ih =>
      intro st
      simp only [List.foldl_cons]
      rw [ih, buscar_procesar]

theorem fold_desafiar_filtrado (q : Option ℚ) (k : String) (ls : List String) :
    ∀ b : Option (ℚ × String),
      ls.foldl (fun b t =>
        if k ∈ extraer_componentes t then desafiar b (dist_mds q t) t else b) b =
        (ls.filter (fun t => decide (k ∈ extraer_componentes t))).foldl
          (fun b t => desafiar b (dist_mds q t) t) b := by
  induction ls with
  | nil => intro b; rfl
  | cons t ls ih =>
      intro b
      by_cases hm : k ∈ extraer_componentes t
      · have hd : decide (k ∈ extraer_componentes t) = true := decide_eq_true hm
        simp only [List.foldl_cons, List.filter_cons, hd, if_true, if_pos hm]
        exact ih _
      · have hd : decide (k ∈ extraer_componentes t) = false := decide_eq_false hm
        simp only [List.foldl_cons, List.filter_cons, hd, Bool.false_eq_true,
          if_false, if_neg hm]
        exact ih _

theorem fold_desafiar_primer (q : Option ℚ) (ls : List String) :
    ∀ w0 : Option String,
      ls.foldl (fun b t => desafiar b (dist_mds q t) t)
          (w0.map (fun w => (dist_mds q w, w))) =
        (ls.foldl (paso_min q) w0).map (fun w => (dist_mds q w, w)) := by
  induction ls with
  | nil => intro w0; rfl
  | cons t ls ih =>
      intro w0
      simp only [List.foldl_cons]
      have hstep : desafiar (w0.map (fun w => (dist_mds q w, w)))
          (dist_mds q t) t =
          (paso_min q w0 t).map (fun w => (dist_mds q w, w)) := by
        cases w0 with
        | none => rfl
        | some w =>
            by_cases hlt : dist_mds q t < dist_mds q w
            · simp [desafiar, paso_min, hlt]
            · simp [desafiar, paso_min, hlt]
      rw [hstep, ih]

theorem buscar_mejor_primer (q : Option ℚ) (hits : List (ℚ × Case))
    (k : String) :
    buscar k ((lineas_tecnicas hits).foldl (procesar_linea q) {}).mejor =
      (primer_min q (candidatas hits k)).map (fun w => (dist_mds q w, w)) := by
  rw [buscar_fold_lineas]
  rw [show (buscar k (({} : FusState)).mejor) =
      ((none : Option String).map (fun w => (dist_mds q w, w))) from rfl]
  rw [fold_desafiar_filtrado, fold_desafiar_primer]
  rfl

theorem fold_filtrado_lineas (q : Option ℚ) (ts : List String) :
    ∀ st : FusState,
      ts.foldl (fun st txt =>
        if txt = "" then st else procesar_linea q st (recortar txt)) st =
        (ts.filterMap (fun t => if t = "" then none else some (recortar t))).foldl
          (procesar_linea q) st := by
  induction ts with
  | nil => intro st; rfl
  | cons t ts ih =>
      intro st
      by_cases ht : t = ""
      · rw [List.foldl_cons, if_pos ht, List.filterMap_cons, if_pos ht]
        exact ih st
      · rw [List.foldl_cons, if_neg ht, List.filterMap_cons, if_neg ht]
        simp only [List.foldl_cons]
        exact ih _

theorem fold_lineas (q : Option ℚ) (hits : List (ℚ × Case)) :
    ∀ st : FusState,
      hits.foldl (fun st sc =>
        ((recs_de sc.2).tecnicas).foldl (fun st txt =>
          if txt = "" then st else procesar_linea q st (recortar txt)) st) st =
        (lineas_tecnicas hits).foldl (procesar_linea q) st := by
  induction hits with
  | nil => intro st; rfl
  | cons sc hits ih =>
      intro st
      simp only [List.foldl_cons, lineas_tecnicas, List.foldl_append]
      rw [fold_filtrado_lineas]
      exact ih _

theorem mem_fold_agregar_mejor (l : List (String × ℚ × String)) :
    ∀ (g : List String) (x : String),
      x ∈ l.foldl (fun acc e => agregar_set acc e.2.2) g ↔
        x ∈ g ∨ ∃ e ∈ l, e.2.2 = x := by
  induction l with
  | nil => simp
  | cons e l ih =>
      intro g x
      simp only [List.foldl_cons]
      rw [ih, mem_agregar_set]
      constructor
      · rintro ((hx | rfl) | ⟨e2, he2, hx⟩)
        · exact Or.inl hx
        · exact Or.inr ⟨e, List.mem_cons_self _ _, rfl⟩
        · exact Or.inr ⟨e2, List.mem_cons_of_mem _ he2, hx⟩
      · rintro (hx | ⟨e2, he2, hx⟩)
        · exact Or.inl (Or.inl hx)
        · rcases List.mem_cons.mp he2 with rfl | hl
          · exact Or.inl (Or.inr hx.symm)
          · exact Or.inr ⟨e2, hl, hx⟩

theorem nodup_fold_agregar_mejor (l : List (String × ℚ × String)) :
    ∀ g : List String, g.Nodup →
      (l.foldl (fun acc e => agregar_set acc e.2.2) g).Nodup := by
  induction l with
  | nil => intro g h; exact h
  | cons e l ih =>
      intro g h
      simp only [List.foldl_cons]
      exact ih _ (nodup_agregar_set _ _ h)

theorem buscar_ne_none_of_mem {α β : Type} [DecidableEq α]
    (m : List (α × β)) : ∀ e : α × β, e ∈ m → buscar e.1 m ≠ none := by
  induction m with
  | nil => intro e he; cases he
  | cons a m ih =>
      intro e he
      by_cases hae : a.1 = e.1
      · simp [buscar, hae]
      · rcases List.mem_cons.mp he with rfl | hm
        · exact absurd rfl hae
        · simp only [buscar, hae, if_false]
          exact ih e hm

theorem claves_actualizar_nodup (m : List (String × ℚ × String)) (c : String)
    (d : ℚ) (txt : String) (h : (m.map Prod.fst).Nodup) :
    ((actualizar_mejor m c d txt).map Prod.fst).Nodup := by
  cases hb : buscar c m with
  | none =>
      have ha : actualizar_mejor m c d txt = m ++ [(c, d, txt)] := by
        unfold actualizar_mejor; rw [hb]
      rw [ha, List.map_append]
      have hsing : List.map Prod.fst [(c, d, txt)] = [c] := rfl
      rw [hsing]
      refine List.Nodup.append h (List.nodup_singleton c) ?_
      intro x hx hxc
      rw [List.mem_singleton] at hxc
      subst hxc
      obtain ⟨e, he, hee⟩ := List.mem_map.mp hx
      apply buscar_ne_none_of_mem m e he
      rw [hee]
      exact hb
  | some dt =>
      have ha : actualizar_mejor m c d txt =
          (if d < dt.1 then
            m.map (fun e => if e.1 = c then (c, d, txt) else e)
          else m) := by
        unfold actualizar_mejor; rw [hb]
      rw [ha]
      by_cases hd : d < dt.1
      · rw [if_pos hd]
        have hkeys : (m.map (fun e => if e.1 = c then (c, d, txt) else e)).map
            Prod.fst = m.map Prod.fst := by
          rw [List.map_map]
          apply List.map_congr_left
          intro e _
          by_cases h1 : e.1 = c
          · simp [Function.comp, h1]
          · simp [Function.comp, h1]
        rw [hkeys]
        exact h
      · rw [if_neg hd]
        exact h

theorem claves_fold_comps_nodup (d : ℚ) (txt : String) (comps : List String) :
    ∀ m : List (String × ℚ × String), (m.map Prod.fst).Nodup →
      (((comps.foldl (fun m c => actualizar_mejor m c d txt) m)).map
        Prod.fst).Nodup := by
  induction comps with
  | nil => intro m h; exact h
  | cons c comps ih =>
      intro m h
      simp only [List.foldl_cons]
      exact ih _ (claves_actualizar_nodup m c d txt h)

theorem claves_procesar_nodup (q : Option ℚ) (st : FusState) (t : String)
    (h : (st.mejor.map Prod.fst).Nodup) :
    ((procesar_linea q st t).mejor.map Prod.fst).Nodup := by
  unfold procesar_linea
  by_cases hc : (extraer_componentes t).isEmpty = true
  · simp [hc]
    exact h
  · rw [if_neg hc]
    exact claves_fold_comps_nodup _ _ _ _ h

theorem claves_fold_lineas_nodup (q : Option ℚ) (ls : List String) :
    ∀ st : FusState, (st.mejor.map Prod.fst).Nodup →
      ((ls.foldl (procesar_linea q) st).mejor.map Prod.fst).Nodup := by
  induction ls with
  | nil => intro st h; exact h
  | cons t ls ih =>
      intro st h
      simp only [List.foldl_cons]
      exact ih _ (claves_procesar_nodup q st t h)

theorem buscar_some_of_mem (m : List (String × ℚ × String)) :
    ∀ e : String × ℚ × String, (m.map Prod.fst).Nodup → e ∈ m →
      buscar e.1 m = some e.2 := by
  induction m with
  | nil => intro e _ he; cases he
  | cons a m ih =>
      intro e hnd he
      rw [List.map_cons] at hnd
      have hnd2 := List.nodup_cons.mp hnd
      rcases List.mem_cons.mp he with rfl | hm
      · simp [buscar]
      · by_cases hae : a.1 = e.1
        · exfalso
          apply hnd2.1
          rw [hae]
          exact List.mem_map.mpr ⟨e, hm, rfl⟩
        · simp only [buscar, hae, if_false]
          exact ih e hnd2.2 hm

theorem mem_of_buscar_some {α β : Type} [DecidableEq α]
    (m : List (α × β)) : ∀ (k : α) (v : β), buscar k m = some v → (k, v) ∈ m := by
  induction m with
  | nil => intro k v h; cases h
  | cons a m ih =>
      intro k v h
      by_cases hak : a.1 = k
      · simp only [buscar, hak, if_pos] at h
        rw [Option.some.injEq] at h
        exact List.mem_cons.mpr (Or.inl (by rw [← hak, ← h]))
      · simp only [buscar, hak, if_false] at h
        exact List.mem_cons.mpr (Or.inr (ih k v h))

theorem fold_paso_min_some (q : Option ℚ) (ls : List String) :
    ∀ w0 : String,
      ∃ w, ls.foldl (paso_min q) (some w0) = some w ∧
        ((w = w0 ∧ ∀ y ∈ ls, dist_mds q w0 ≤ dist_mds q y) ∨
         (∃ l1 l2, ls = l1 ++ w :: l2 ∧ dist_mds q w < dist_mds q w0 ∧
            (∀ y ∈ l1, dist_mds q w < dist_mds q y) ∧
            (∀ y ∈ l2, dist_mds q w ≤ dist_mds q y))) := by
  induction ls with
  | nil => intro w0; exact ⟨w0, rfl, Or.inl ⟨rfl, by simp⟩⟩
  | cons t ls ih =>
      intro w0
      simp only [List.foldl_cons]
      by_cases hlt : dist_mds q t < dist_mds q w0
      · have hp : paso_min q (some w0) t = some t := by simp [paso_min, hlt]
        rw [hp]
        obtain ⟨w, hw, hcase⟩ := ih t
        refine ⟨w, hw, Or.inr ?_⟩
        rcases hcase with ⟨rfl, hmin⟩ | ⟨l1, l2, heq, hwt, h1, h2⟩
        · exact ⟨[], ls, rfl, hlt, by simp, hmin⟩
        · refine ⟨t :: l1, l2, by rw [heq, List.cons_append], lt_trans hwt hlt, ?_, h2⟩
          intro y hy
          rcases List.mem_cons.mp hy with rfl | hy1
          · exact hwt
          · exact h1 y hy1
      · have hp : paso_min q (some w0) t = some w0 := by simp [paso_min, hlt]
        rw [hp]
        obtain ⟨w, hw, hcase⟩ := ih w0
        refine ⟨w, hw, ?_⟩
        rcases hcase with ⟨rfl, hmin⟩ | ⟨l1, l2, heq, hww0, h1, h2⟩
        · refine Or.inl ⟨rfl, ?_⟩
          intro y hy
          rcases List.mem_cons.mp hy with rfl | hy1
          · exact le_of_not_lt hlt
          · exact hmin y hy1
        · refine Or.inr ⟨t :: l1, l2, by rw [heq, List.cons_append], hww0, ?_, h2⟩
          intro y hy
          rcases List.mem_cons.mp hy with rfl | hy1
          · exact lt_of_lt_of_le hww0 (le_of_not_lt hlt)
          · exact h1 y hy1

theorem primer_min_caracterizacion (q : Option ℚ) (ls : List String)
    (w : String) (h : primer_min q ls = some w) :
    ∃ l1 l2, ls = l1 ++ w :: l2 ∧ (∀ y ∈ l1, dist_mds q w < dist_mds q y) ∧
      (∀ y ∈ ls, dist_mds q w ≤ dist_mds q y) := by
  cases ls with
  | nil => cases h
  | cons t ls =>
      have h' : ls.foldl (paso_min q) (some t) = some w := by
        simpa [primer_min, List.foldl_cons, paso_min] using h
      obtain ⟨w2, hw2, hcase⟩ := fold_paso_min_some q ls t
      have hww : w2 = w := Option.some.inj (hw2.symm.trans h')
      subst hww
      rcases hcase with ⟨rfl, hmin⟩ | ⟨l1, l2, heq, hwt, h1, h2⟩
      · refine ⟨[], ls, rfl, by simp, ?_⟩
        intro y hy
        rcases List.mem_cons.mp hy with rfl | hy1
        · exact le_refl _
        · exact hmin y hy1
      · refine ⟨t :: l1, l2, by rw [heq, List.cons_append], ?_, ?_⟩
        · intro y hy
          rcases List.mem_cons.mp hy with rfl | hy1
          · exact hwt
          · exact h1 y hy1
        · intro y hy
          rcases List.mem_cons.mp hy with rfl | hy1
          · exact le_of_lt hwt
          · rw [heq] at hy1
            rcases List.mem_append.mp hy1 with hy2 | hy3
            · exact le_of_lt (h1 y hy2)
            · rcases List.mem_cons.mp hy3 with rfl | hy4
              · exact le_refl _
              · exact h2 y hy4

theorem primer_min_existe (q : Option ℚ) (ls : List String) (h : ls ≠ []) :
    ∃ w, primer_min q ls = some w := by
  cases ls with
  | nil => exact absurd rfl h
  | cons t ls =>
      have he : primer_min q (t :: ls) = ls.foldl (paso_min q) (some t) := by
        simp [primer_min, List.foldl_cons, paso_min]
      obtain ⟨w, hw, _⟩ := fold_paso_min_some q ls t
      exact ⟨w, by rw [he, hw]⟩

theorem ordenar_str_sorted (l : List String) :
    (ordenar_str l).Sorted (fun a b : String => a ≤ b) :=
  List.sorted_insertionSort _ l

theorem ordenar_str_perm (l : List String) : List.Perm (ordenar_str l) l :=
  List.perm_insertionSort _ l

/-- C5 witness: dropping the (both-sides-null) humidity feature from the
nursery weight table leaves the score of the concrete vectors unchanged. -/
theorem renormalizacion_testigo :
    simA_con (WEIGHTS Dom.almacigos) vec_q_ej vec_c_ej =
      simA_con ((WEIGHTS Dom.almacigos).filter
        (fun kw => decide (kw.1 ≠ WKey.num FKey.humedad))) vec_q_ej vec_c_ej :=
  (renormalizacion (WEIGHTS Dom.almacigos) vec_q_ej vec_c_ej bvec_ej none
    (WKey.num FKey.humedad)).2.1 rfl rfl

/-! ### Claim theorems -/

/-- C2.  Phase resolution: an explicitly supplied (non-falsy) phase is used
unchanged; otherwise, with MDS present, MDS≤0.5 gives nursery, 0.5<MDS≤24
gives flowering-filling, MDS>24 gives harvest-postharvest; otherwise the
phase comes from the altitude+month lookup with two altitude bands (≥1500 m
versus <1500 m), each band mapping groups of four contiguous months,
cyclically offset per band, to the three phases. -/
theorem resolucion_fase (params : Params) (altitud : Option ℚ) (mes : String)
    (m : ℚ) :
    (∀ f, params.fase = some f → f ≠ "" → fase_resuelta params = f)
    ∧ (params.fase = none → fase_resuelta params =
        inferir_fase params.altitud params.mes params.meses_despues_siembra)
    ∧ (m ≤ 1/2 → inferir_fase altitud mes (some m) = "vivero_establecimiento")
    ∧ (1/2 < m → m ≤ 24 → inferir_fase altitud mes (some m) = "floracion_llenado")
    ∧ (24 < m → inferir_fase altitud mes (some m) = "cosecha_poscosecha")
    ∧ inferir_fase altitud mes none =
        fase_por_bandas (altitud.getD 1650)
          (indice_mes (a_minusculas (recortar mes))) := by
  refine ⟨?_, ?_, ?_, ?_, ?_, ?_⟩
  · intro f hf hne
    simp [fase_resuelta, hf, hne]
  · intro hf
    simp [fase_resuelta, hf]
  · intro hm
    rw [inferir_fase, if_pos hm]
  · intro hm1 hm2
    rw [inferir_fase]
    rw [if_neg (by linarith), if_pos hm2]
  · intro hm
    rw [inferir_fase]
    rw [if_neg (by linarith), if_neg (by linarith)]
  · exact bandas_eq (altitud.getD 1650) (indice_mes (a_minusculas (recortar mes)))
      (indice_mes_lt _)

/-- C2 witness: at query MDS = 10 the resolved phase is flowering-filling. -/
theorem resolucion_fase_testigo :
    inferir_fase (some 1678) "noviembre" (some 10) = "floracion_llenado" :=
  (resolucion_fase params_ej (some 1678) "noviembre" 10).2.2.2.1
    (by norm_num) (by norm_num)

/-- C3.  Applicability override: with MDS present and 1≤MDS≤24 the
fertilisation domain is applicable with a null reason, for every phase; in
every other domain/phase combination the gate returns applicable exactly
when the phase is in the domain's fixed valid-phase set, with the domain's
rejection reason otherwise. -/
theorem aplicabilidad_dominio (dominio : Dom) (fase : String)
    (mds : Option ℚ) (m : ℚ) :
    (mds = some m → 1 ≤ m → m ≤ 24 →
      dominio_aplica Dom.fertilizacion_sin_analisis fase mds = (true, none))
    ∧ ((dominio = Dom.fertilizacion_sin_analisis → mds_en_rango mds = false) →
        dominio_aplica dominio fase mds =
          (decide (fase ∈ (APLICA_DOM dominio).aplica_en),
           if fase ∈ (APLICA_DOM dominio).aplica_en then none
           else some (APLICA_DOM dominio).razon_no_aplica)) := by
  constructor
  · intro hm h1 h2
    subst hm
    simp [dominio_aplica, mds_en_rango, h1, h2]
  · intro h
    by_cases hd : dominio = Dom.fertilizacion_sin_analisis
    · simp [dominio_aplica, h hd, hd]
    · simp [dominio_aplica, hd]

/-- C3 witness: fertilisation, declared nursery phase, MDS = 10 →
applicable with a null reason. -/
theorem aplicabilidad_dominio_testigo :
    dominio_aplica Dom.fertilizacion_sin_analisis "vivero_establecimiento"
      (some 10) = (true, none) :=
  (aplicabilidad_dominio Dom.fertilizacion_sin_analisis
    "vivero_establecimiento" (some 10) 10).1 rfl (by norm_num) (by norm_num)

/-- C6 counterexample: the nursery weight table does not sum to 1.0 (it
sums to 21/20 = 1.05). -/
theorem pesos_no_uno :
    ((WEIGHTS Dom.almacigos).map Prod.snd).sum ≠ 1
    ∧ ((WEIGHTS Dom.almacigos).map Prod.snd).sum = 21/20 := by
  constructor <;> · simp [WEIGHTS]; norm_num

/-- C6 amended: the tier-A weight tables sum to 1.05 (nursery), 1.07
(fertilisation) and exactly 1.0 (borer). -/
theorem pesos_sumas :
    ((WEIGHTS Dom.almacigos).map Prod.snd).sum = 21/20
    ∧ ((WEIGHTS Dom.fertilizacion_sin_analisis).map Prod.snd).sum = 107/100
    ∧ ((WEIGHTS Dom.broca).map Prod.snd).sum = 1 := by
  refine ⟨?_, ?_, ?_⟩ <;> · simp [WEIGHTS]; norm_num

/-- C8.  Retention id assignment: the new id is `NEW-` followed by the
zero-padded (width 4) 1-based successor of the number of records read from
the target store, where a missing, unreadable or non-list store reads as
empty; the store content written back is the existing records unchanged
with the new case appended; an empty store yields `NEW-0001` and a store
with three records yields `NEW-0004`. -/
theorem retencion_id (store : Source) (c c1 c2 c3 : Case) :
    (append_case_to_yaml store c).1 =
      "NEW-" ++ pad4 ((casos_existentes store).length + 1)
    ∧ (append_case_to_yaml store c).2 =
        casos_existentes store ++
          [{ c with id := some ((append_case_to_yaml store c).1) }]
    ∧ (append_case_to_yaml store c).2.length = (casos_existentes store).length + 1
    ∧ (append_case_to_yaml store c).2.take (casos_existentes store).length =
        casos_existentes store
    ∧ casos_existentes Source.missing = []
    ∧ casos_existentes Source.unreadable = []
    ∧ casos_existentes Source.nonList = []
    ∧ (append_case_to_yaml (Source.parsed []) c).1 = "NEW-0001"
    ∧ (append_case_to_yaml (Source.parsed [c1, c2, c3]) c).1 = "NEW-0004" := by
  refine ⟨rfl, rfl, ?_, ?_, rfl, rfl, rfl, ?_, ?_⟩
  · simp [append_case_to_yaml]
  · exact List.take_left _ _
  · show ("NEW-" ++ pad4 1 : String) = "NEW-0001"
    decide
  · show ("NEW-" ++ pad4 4 : String) = "NEW-0004"
    decide

/-- C9 counterexample: with selector `auto`, the case synthesised for
retention carries the domain tag `"auto"`, not the fertilisation tag. -/
theorem retencion_tipo_contraejemplo :
    caso_retenido_ej.tipo = some "auto"
    ∧ caso_retenido_ej.tipo ≠ some "fertilizacion_sin_analisis" := by
  constructor
  · rfl
  · decide

/-- C9 amended: when the domain selector is `auto`, the retained case
carries the resolved fertilisation recommendation set, but its stored
domain tag is the literal selector value `"auto"`. -/
theorem retencion_dominio (params : Params) (fase_actual : String)
    (resultados : List (Dom × DomResult)) (h : params.tipo = Tipo.auto) :
    (out_case_of params fase_actual resultados).tipo = some "auto"
    ∧ (out_case_of params fase_actual resultados).recomendaciones =
        (buscar Dom.fertilizacion_sin_analisis resultados).map (fun dr =>
          { tecnicas := dr.recomendaciones.tecnicas,
            tradicionales := dr.recomendaciones.tradicionales,
            categorias := [] }) := by
  constructor
  · simp [out_case_of, h, tipo_str]
  · simp [out_case_of, h]

/-- C4.  Gated-inapplicable outcome: when the gate rejects a domain,
`top_k_A` returns an empty hit list without scoring any case (the result is
the same for every case list), the metadata carries a non-null reason, and
the assembled per-domain block has empty hits and empty technical and
traditional recommendations. -/
theorem dominio_inaplicable (sincos : Nat → ℚ × ℚ) (cases : List Case)
    (query_vec : Vec) (dom : Dom) (k : Int) (fase : String) (mds : Option ℚ)
    (h : (dominio_aplica dom fase mds).1 = false) :
    top_k_A sincos cases query_vec dom k fase mds =
      ([], ⟨false, (dominio_aplica dom fase mds).2⟩)
    ∧ (dominio_aplica dom fase mds).2 ≠ none
    ∧ (∀ (klist : List (ℚ × Case)) (meta : Aplicabilidad) (mds2 : Option ℚ),
        meta.aplica = false →
        (armar_resultado dom klist meta mds2).recomendaciones = ⟨[], []⟩)
    ∧ (∀ dominios : List Dom, dom ∈ dominios →
        buscar dom (resultados_of sincos cases query_vec dominios k fase mds) =
          some ⟨[], ⟨[], []⟩, ⟨false, (dominio_aplica dom fase mds).2⟩⟩) := by
  have htop : top_k_A sincos cases query_vec dom k fase mds =
      ([], ⟨false, (dominio_aplica dom fase mds).2⟩) := by
    simp [top_k_A, h]
  refine ⟨htop, ?_, ?_, ?_⟩
  · cases hcb : (decide (dom = Dom.fertilizacion_sin_analisis) && mds_en_rango mds) with
    | true => simp [dominio_aplica, hcb] at h
    | false =>
        simp only [dominio_aplica, hcb, Bool.false_eq_true, if_false] at h ⊢
        simp only [decide_eq_false_iff_not] at h
        simp [h]
  · intro klist meta mds2 hm
    simp [armar_resultado, hm]
  · intro dominios hmem
    induction dominios with
    | nil => cases hmem
    | cons d ds ih =>
        by_cases hd : d = dom
        · subst hd
          simp [resultados_of, buscar, htop, armar_resultado]
        · have hmem' : dom ∈ ds := by
            cases hmem with
            | head => exact absurd rfl hd
            | tail _ h' => exact h'
          simp only [resultados_of, List.map_cons, buscar, hd, if_false]
          simp only [resultados_of] at ih
          exact ih hmem'

/-- C4 witness: borer gated out in a non-harvest phase — empty hits and the
rejection reason, for the concrete case list. -/
theorem dominio_inaplicable_testigo :
    top_k_A sincos_ej [caso_fert6] (extract_input_vector sincos_ej params_ej)
      Dom.almacigos 3 "cosecha_poscosecha" none =
      ([], ⟨false, (dominio_aplica Dom.almacigos "cosecha_poscosecha" none).2⟩) :=
  (dominio_inaplicable sincos_ej [caso_fert6]
    (extract_input_vector sincos_ej params_ej) Dom.almacigos 3
    "cosecha_poscosecha" none (by decide)).1

/-- C7 counterexample: a source whose open/parse raises is not skipped — it
aborts the whole load, so a preceding well-formed source yields no cases. -/
theorem carga_ilegible_contraejemplo :
    load_cases [Source.parsed [caso_fert6], Source.unreadable] =
      Except.error ()
    ∧ load_cases [Source.parsed [caso_fert6], Source.unreadable] ≠
        Except.ok [caso_fert6] := by
  constructor
  · rfl
  · simp [load_cases, Except.map]

/-- C7 amended: a missing source or a source parsing to a non-list shape is
skipped and loading continues; a source whose open or parse raises aborts
loading with an exception; a parsed list source contributes its records in
order; and the request returns the no-result outcome (`None`) exactly when
loading succeeds with an empty combined case list, while a load exception
propagates out of `run_cbr`. -/
theorem politica_carga (rest : List Source) (cs : List Case)
    (sincos : Nat → ℚ × ℚ) (params : Params) (v : Bool) :
    load_cases (Source.missing :: rest) = load_cases rest
    ∧ load_cases (Source.nonList :: rest) = load_cases rest
    ∧ load_cases (Source.unreadable :: rest) = Except.error ()
    ∧ load_cases (Source.parsed cs :: rest) =
        (load_cases rest).map (fun acc => cs ++ acc)
    ∧ (run_cbr sincos params v = Except.ok none ↔
        load_cases params.data = Except.ok [])
    ∧ (load_cases params.data = Except.error () →
        run_cbr sincos params v = Except.error PyExc.yaml_load_error) := by
  refine ⟨rfl, rfl, rfl, rfl, ?_, ?_⟩
  · cases hL : load_cases params.data with
    | error e => simp [run_cbr, hL]
    | ok cs' =>
        cases cs' with
        | nil => simp [run_cbr, hL]
        | cons a as => cases v <;> simp [run_cbr, hL]
  · intro hE
    simp [run_cbr, hE]

/-- C7 witness: a raising source makes the whole request fail. -/
theorem politica_carga_testigo :
    run_cbr sincos_ej params_err false = Except.error PyExc.yaml_load_error :=
  (politica_carga [] [] sincos_ej params_err false).2.2.2.2.2 rfl

/-- C10.  Verbose-path totality: whenever the case stores load successfully
and nonempty, `run_cbr` with `verbose=true` raises the unbound-local error
(the printed summary references `output` before its assignment), while
`verbose=false` — the API path — returns the assembled response. -/
theorem ruta_verbose (sincos : Nat → ℚ × ℚ) (params : Params) (cs : List Case)
    (hL : load_cases params.data = Except.ok cs) (hne : cs ≠ []) :
    run_cbr sincos params true = Except.error PyExc.unbound_local_output
    ∧ ∃ out, run_cbr sincos params false = Except.ok (some out) := by
  cases cs with
  | nil => exact absurd rfl hne
  | cons a as =>
      constructor
      · simp [run_cbr, hL]
      · simp only [run_cbr, hL, List.isEmpty_cons, Bool.false_eq_true,
          if_false, ite_false]
        exact ⟨_, rfl⟩

/-- C10 witness: the concrete query raises under `verbose=true`. -/
theorem ruta_verbose_testigo :
    run_cbr sincos_ej params_ej true = Except.error PyExc.unbound_local_output :=
  (ruta_verbose sincos_ej params_ej [caso_fert6] rfl (by simp)).1

/-- C9 witness: the amended statement at the concrete `auto` query. -/
theorem retencion_dominio_testigo :
    caso_retenido_ej.tipo = some "auto"
    ∧ caso_retenido_ej.recomendaciones =
        (buscar Dom.fertilizacion_sin_analisis
          (resultados_of sincos_ej [caso_fert6]
            (extract_input_vector sincos_ej params_ej)
            (dominios_de params_ej.tipo) params_ej.k (fase_resuelta params_ej)
            params_ej.meses_despues_siembra)).map (fun dr =>
          { tecnicas := dr.recomendaciones.tecnicas,
            tradicionales := dr.recomendaciones.tradicionales,
            categorias := [] }) :=
  retencion_dominio params_ej (fase_resuelta params_ej) _ rfl

/-- C1.  Fertilization fusion: the fused technical list is sorted and
duplicate-free; a line belongs to it exactly when it is a processed generic
line (no component token) or the per-component winner for some component;
for every component with candidates exactly one winner exists, and it is
the earliest candidate (hit order, then line order) whose parsed MDS marker
is closest to the query MDS; the distance is `|query − marker|` when both
are present and the large constant 999 otherwise (deprioritised, not
dropped). -/
theorem fusion_fertilizacion (hits : List (ℚ × Case)) (q : Option ℚ) :
    (combinar_recs_fertilizacion hits q).Sorted (fun a b : String => a ≤ b)
    ∧ (combinar_recs_fertilizacion hits q).Nodup
    ∧ (∀ x, x ∈ combinar_recs_fertilizacion hits q ↔
        ((x ∈ lineas_tecnicas hits ∧ extraer_componentes x = []) ∨
         ∃ comp, primer_min q (candidatas hits comp) = some x))
    ∧ (∀ comp, candidatas hits comp ≠ [] →
        ∃ w, primer_min q (candidatas hits comp) = some w)
    ∧ (∀ comp w, primer_min q (candidatas hits comp) = some w →
        ∃ l1 l2, candidatas hits comp = l1 ++ w :: l2 ∧
          (∀ y ∈ l1, dist_mds q w < dist_mds q y) ∧
          (∀ y ∈ candidatas hits comp, dist_mds q w ≤ dist_mds q y))
    ∧ (∀ t a b, q = some a → extraer_mds_de_texto t = some b →
        dist_mds q t = |a - b|)
    ∧ (∀ t, q = none ∨ extraer_mds_de_texto t = none →
        dist_mds q t = 999) := by
  have hcomb : combinar_recs_fertilizacion hits q =
      ordenar_str ((((lineas_tecnicas hits).foldl (procesar_linea q) {}).mejor).foldl
        (fun acc e => agregar_set acc e.2.2)
        (((lineas_tecnicas hits).foldl (procesar_linea q) {}).genericas)) := by
    unfold combinar_recs_fertilizacion
    rw [fold_lineas]
  have hgen_nodup :
      (((lineas_tecnicas hits).foldl (procesar_linea q) {}).genericas).Nodup := by
    rw [genericas_fold]
    exact nodup_fold_agregar_si _ _ _ List.nodup_nil
  have hres_nodup :
      ((((lineas_tecnicas hits).foldl (procesar_linea q) {}).mejor).foldl
        (fun acc e => agregar_set acc e.2.2)
        (((lineas_tecnicas hits).foldl (procesar_linea q) {}).genericas)).Nodup :=
    nodup_fold_agregar_mejor _ _ hgen_nodup
  have hkeys :
      ((((lineas_tecnicas hits).foldl (procesar_linea q) {}).mejor).map
        Prod.fst).Nodup :=
    claves_fold_lineas_nodup q _ {} List.nodup_nil
  refine ⟨?_, ?_, ?_, ?_, ?_, ?_, ?_⟩
  · rw [hcomb]; exact ordenar_str_sorted _
  · rw [hcomb]; exact ((ordenar_str_perm _).symm).nodup hres_nodup
  · intro x
    rw [hcomb, (ordenar_str_perm _).mem_iff, mem_fold_agregar_mejor]
    constructor
    · rintro (hg | ⟨e, he, rfl⟩)
      · left
        rw [genericas_fold] at hg
        rcases (mem_fold_agregar_si _ _ _ _).mp hg with hx | ⟨hls, hpx⟩
        · exact absurd hx (List.not_mem_nil x)
        · exact ⟨hls, List.isEmpty_iff.mp hpx⟩
      · right
        have hl : buscar e.1
            ((lineas_tecnicas hits).foldl (procesar_linea q) {}).mejor =
            some e.2 :=
          buscar_some_of_mem _ e hkeys he
        have hb := buscar_mejor_primer q hits e.1
        rw [hl] at hb
        cases hpm : primer_min q (candidatas hits e.1) with
        | none => rw [hpm] at hb; cases hb
        | some w =>
            rw [hpm] at hb
            have he2 : e.2 = (dist_mds q w, w) := Option.some.inj hb
            refine ⟨e.1, ?_⟩
            rw [hpm, he2]
    · rintro (⟨hls, hcomps⟩ | ⟨comp, hpm⟩)
      · left
        rw [genericas_fold]
        apply (mem_fold_agregar_si _ _ _ _).mpr
        exact Or.inr ⟨hls, by rw [hcomps]; rfl⟩
      · right
        have hb := buscar_mejor_primer q hits comp
        rw [hpm] at hb
        exact ⟨(comp, dist_mds q x, x), mem_of_buscar_some _ comp _ hb, rfl⟩
  · intro comp h
    exact primer_min_existe q _ h
  · intro comp w h
    exact primer_min_caracterizacion q _ w h
  · intro t a b ha hb
    subst ha
    simp [dist_mds, hb]
  · intro t h
    rcases h with rfl | hnone
    · cases h2 : extraer_mds_de_texto t <;> simp [dist_mds, h2]
    · cases q <;> simp [dist_mds, hnone]

/-- C1 witness: the specification example — two urea candidates with
markers 6 MDS and 18 MDS and query MDS 10 — keeps the 6-MDS line (distance
4 < 8) and the generic line, and drops the 18-MDS line. -/
theorem fusion_fertilizacion_testigo :
    ("Aplicar urea 6 MDS" ∈ combinar_recs_fertilizacion hits_ej (some 10))
    ∧ "Aplicar urea 18 MDS" ∉ combinar_recs_fertilizacion hits_ej (some 10)
    ∧ "Riego ligero" ∈ combinar_recs_fertilizacion hits_ej (some 10) := by
  have hc : candidatas hits_ej "urea" =
      ["Aplicar urea 6 MDS", "Aplicar urea 18 MDS"] := by decide
  have h6 : extraer_mds_de_texto "Aplicar urea 6 MDS" = some 6 := rfl
  have h18 : extraer_mds_de_texto "Aplicar urea 18 MDS" = some 18 := rfl
  have hd6 : dist_mds (some 10) "Aplicar urea 6 MDS" = 4 := by
    simp only [dist_mds, h6]
    norm_num
  have hd18 : dist_mds (some 10) "Aplicar urea 18 MDS" = 8 := by
    simp only [dist_mds, h18]
    norm_num
  have hpm : primer_min (some 10) (candidatas hits_ej "urea") =
      some "Aplicar urea 6 MDS" := by
    rw [hc]
    unfold primer_min
    simp [paso_min, hd6, hd18]
    norm_num
  refine ⟨?_, ?_, ?_⟩
  · exact ((fusion_fertilizacion hits_ej (some 10)).2.2.1 _).mpr
      (Or.inr ⟨"urea", hpm⟩)
  · intro hmem
    rcases ((fusion_fertilizacion hits_ej (some 10)).2.2.1 _).mp hmem with
      ⟨_, hcomps⟩ | ⟨comp, hpm2⟩
    · exact absurd hcomps (by decide)
    · have hwmem : "Aplicar urea 18 MDS" ∈ candidatas hits_ej comp := by
        obtain ⟨l1, l2, heq, _, _⟩ :=
          primer_min_caracterizacion _ _ _ hpm2
        rw [heq]
        exact List.mem_append.mpr (Or.inr (List.mem_cons_self _ _))
      have hcompu : comp = "urea" := by
        have hpred := (List.mem_filter.mp hwmem).2
        have h2 : comp ∈ extraer_componentes "Aplicar urea 18 MDS" :=
          of_decide_eq_true hpred
        have h3 : extraer_componentes "Aplicar urea 18 MDS" = ["urea"] := by
          decide
        rw [h3] at h2
        simpa using h2
      rw [hcompu, hpm] at hpm2
      exact absurd (Option.some.inj hpm2) (by decide)
  · exact ((fusion_fertilizacion hits_ej (some 10)).2.2.1 _).mpr
      (Or.inl ⟨by decide, by decide⟩)

end Cbr
